import Mathlib

/-!
Shallow embedding of the session-oriented Streamable HTTP transport
(`src/transports/streamable-http-transport.js`, the `SessionManager` /
`handleGetMcp` / `handlePostMcp` / `handleDeleteMcp` variant).

Timestamps (`Date.now()` / `new Date()`) are modelled as `Int` milliseconds
supplied by the environment; `randomUUID()` is modelled as a `String`
parameter supplied by the environment (freshness becomes an explicit
hypothesis where a claim needs it).  The Express `Response` object held by a
session is modelled as a `Nat` handle; whether the underlying channel is
still open is tracked separately in the server state.  The `Map` of sessions
is modelled as an association list in insertion order with `Map.set`
replace-or-append semantics.
-/

namespace StreamableHttp

/-- A JSON value, used to state response bodies field-for-field. -/
inductive Json where
  | null : Json
  | bool (b : Bool) : Json
  | num (n : Int) : Json
  | str (s : String) : Json
  | arr (elems : List Json) : Json
  | obj (fields : List (String × Json)) : Json

/-- An HTTP response: status code plus optional JSON body
(`res.status(...).json(...)` versus `res.status(204).end()`). -/
structure HttpResponse where
  status : Nat
  body : Option Json

/-- `JSON_RPC_ERROR_CODES.INVALID_REQUEST`. -/
def INVALID_REQUEST : Int := -32600

/-- `JSON_RPC_ERROR_CODES.UNAUTHORIZED` (custom MCP code). -/
def UNAUTHORIZED : Int := -32001

/-- `SESSION_CONFIG.MAX_AGE_MS`. -/
def MAX_AGE_MS : Int := 3600000

/-- One entry of the `SessionManager` map: `{ id, response, createdAt,
lastActivity }`.  `response` is the handle of the SSE response channel. -/
structure Session where
  id : String
  response : Nat
  createdAt : Int
  lastActivity : Int
deriving DecidableEq, Repr

/-- JS `Map.set` on the session map: replace the binding in place if the key
is present, otherwise append (insertion order). -/
def mapSet (sessions : List Session) (s : Session) : List Session :=
  if sessions.any (fun t => t.id == s.id) then
    sessions.map (fun t => if t.id == s.id then s else t)
  else
    sessions ++ [s]

/-- `SessionManager.createSession`: store a fresh session with
`createdAt = lastActivity = now` and return the generated id.  The id
produced by `randomUUID()` is the `sessionId` parameter. -/
def createSession (sessions : List Session) (sessionId : String) (res : Nat)
    (now : Int) : List Session × String :=
  (mapSet sessions { id := sessionId, response := res, createdAt := now, lastActivity := now },
   sessionId)

/-- `SessionManager.getSession`: look up by id; on a hit, mutate the stored
session's `lastActivity` to `now` and return it.  Returns the updated map
together with the found session. -/
def getSession (sessions : List Session) (sessionId : String) (now : Int) :
    List Session × Option Session :=
  match sessions.find? (fun s => s.id == sessionId) with
  | some s =>
      let s' := { s with lastActivity := now }
      (sessions.map (fun t => if t.id == sessionId then s' else t), some s')
  | none => (sessions, none)

/-- `SessionManager.deleteSession`: delete the binding if present, silently
do nothing otherwise. -/
def deleteSession (sessions : List Session) (sessionId : String) : List Session :=
  if sessions.any (fun t => t.id == sessionId) then
    sessions.filter (fun t => !(t.id == sessionId))
  else
    sessions

/-- The staleness test of the cleanup loop: `now - session.lastActivity.getTime() > maxAgeMs`. -/
def stale (now maxAgeMs : Int) (s : Session) : Bool :=
  decide (now - s.lastActivity > maxAgeMs)

/-- `SessionManager.cleanupStale`: iterate over the entries, delete every
stale one and count the deletions (the count is logged).  Returns the updated
map together with the final `cleanedCount`. -/
def cleanupStale (sessions : List Session) (now maxAgeMs : Int) :
    List Session × Nat :=
  sessions.foldl
    (fun acc s =>
      if stale now maxAgeMs s then (deleteSession acc.1 s.id, acc.2 + 1) else acc)
    (sessions, 0)

/-- The value `cleanupStale(...)` evaluates to at a call site.  The
TypeScript signature is `cleanupStale(maxAgeMs: number): void` and the body
ends without a `return` statement, so the call-site value is `undefined`,
modelled as `none`. -/
def cleanupStaleRet (_sessions : List Session) (_now _maxAgeMs : Int) : Option Nat :=
  none

/-- `SessionManager.getActiveCount`. -/
def getActiveCount (sessions : List Session) : Nat :=
  sessions.length

/-- `validateSessionIdHeader`: `typeof sessionId === "string" && sessionId.length > 0`. -/
def validateSessionIdHeader (sessionId : Option String) : Bool :=
  match sessionId with
  | some s => decide (s.length > 0)
  | none => false

/-- `createJsonRpcError`: `{ jsonrpc: "2.0", error: { code, message },
...(id !== undefined && { id }) }`. -/
def createJsonRpcError (code : Int) (message : String) (id : Option Json) : Json :=
  Json.obj
    ([("jsonrpc", Json.str "2.0"),
      ("error", Json.obj [("code", Json.num code), ("message", Json.str message)])]
     ++ (match id with | none => [] | some j => [("id", j)]))

/-- `sendJsonRpcError`: `res.status(statusCode).json(createJsonRpcError(errorCode, message))`
(no `id` argument is ever passed at the call sites). -/
def sendJsonRpcError (statusCode : Nat) (errorCode : Int) (message : String) :
    HttpResponse :=
  { status := statusCode, body := some (createJsonRpcError errorCode message none) }

/-- The `{ accepted: true }` acknowledgment body. -/
def acceptedBody : Json := Json.obj [("accepted", Json.bool true)]

/-- `handlePostMcp`: validate the `Mcp-Session-Id` header, then validate the
session via `getSession` (which touches `lastActivity`), then acknowledge
with `202 { accepted: true }`.  Returns the response and the updated
session map. -/
def handlePostMcp (header : Option String) (sessions : List Session) (now : Int) :
    HttpResponse × List Session :=
  if validateSessionIdHeader header then
    let sid := header.getD ""
    match getSession sessions sid now with
    | (sessions', some _) => ({ status := 202, body := some acceptedBody }, sessions')
    | (sessions', none) =>
        (sendJsonRpcError 401 UNAUTHORIZED "Unauthorized: Invalid or expired session ID",
         sessions')
  else
    (sendJsonRpcError 400 INVALID_REQUEST "Bad Request: Missing Mcp-Session-Id header",
     sessions)

/-- `handleDeleteMcp`: `if (sessionId) { deleteSession(sessionId) }` — a JS
truthiness test, so an absent header and an empty-string header both skip the
delete — then always `res.status(204).end()`. -/
def handleDeleteMcp (header : Option String) (sessions : List Session) :
    HttpResponse × List Session :=
  let sessions' :=
    match header with
    | some sid => if sid.length > 0 then deleteSession sessions sid else sessions
    | none => sessions
  ({ status := 204, body := none }, sessions')

/-- The POST path through the Express middleware stack: `express.json()`
parses the body first; a `SyntaxError` is intercepted by the error-handling
middleware, which answers `400` with the INVALID_REQUEST envelope before the
route (and hence identifier validation) runs.  `none` models an unparseable
body, `some j` a parsed one. -/
def handlePostPipeline (body : Option Json) (header : Option String)
    (sessions : List Session) (now : Int) : HttpResponse × List Session :=
  match body with
  | none => (sendJsonRpcError 400 INVALID_REQUEST "Bad Request: Malformed JSON", sessions)
  | some _ => handlePostMcp header sessions now

/-- One SSE response channel, created by a GET request: its handle, the
session id issued when it was opened (captured by the `req.on("close")`
callback), and whether the underlying connection is still open.  Nothing in
`SessionManager` ever closes a channel; only a client disconnect does. -/
structure Stream where
  res : Nat
  sid : String
  isOpen : Bool
deriving DecidableEq, Repr

/-- The state of the transport server: the `SessionManager` map plus the SSE
channels opened so far. -/
structure Server where
  sessions : List Session
  streams : List Stream
deriving DecidableEq, Repr

/-- The empty server state at startup. -/
def Server.init : Server := { sessions := [], streams := [] }

/-- Externally visible events: the three verbs of the `/mcp` endpoint, the
connection-close callback, and a timer tick of the background cleanup.
`establish` carries the id produced by `randomUUID()` and the handle of the
fresh response object; `post`/`terminate` carry the `Mcp-Session-Id` header;
timestamps are the values of `new Date()` / `Date.now()` during handling. -/
inductive Event where
  | establish (sid : String) (res : Nat) (t : Int)
  | post (header : Option String) (t : Int)
  | terminate (header : Option String) (t : Int)
  | disconnect (res : Nat) (t : Int)
  | sweep (maxAgeMs : Int) (t : Int)
deriving DecidableEq, Repr

/-- One step of the server.  `establish` is `handleGetMcp` (create the
session, keep the channel open, register the close callback); `post` is
`handlePostMcp`; `terminate` is `handleDeleteMcp`; `disconnect` runs the
close callback of the matching channel (`deleteSession(sessionId)`) and marks
the channel closed; `sweep` is `cleanupStale`.  The second component is the
terminal response, when the handler sends one. -/
def step (s : Server) (e : Event) : Server × Option HttpResponse :=
  match e with
  | .establish sid res t =>
      ({ sessions := (createSession s.sessions sid res t).1,
         streams := s.streams ++ [{ res := res, sid := sid, isOpen := true }] },
       none)
  | .post header t =>
      ({ s with sessions := (handlePostMcp header s.sessions t).2 },
       some (handlePostMcp header s.sessions t).1)
  | .terminate header _ =>
      ({ s with sessions := (handleDeleteMcp header s.sessions).2 },
       some (handleDeleteMcp header s.sessions).1)
  | .disconnect res _ =>
      match s.streams.find? (fun st => st.res == res) with
      | some st =>
          ({ sessions := deleteSession s.sessions st.sid,
             streams := s.streams.map (fun u => if u.res == res then { u with isOpen := false } else u) },
           none)
      | none => (s, none)
  | .sweep maxAgeMs t =>
      ({ s with sessions := (cleanupStale s.sessions t maxAgeMs).1 }, none)

/-- Run a sequence of events. -/
def runTrace (s : Server) (es : List Event) : Server :=
  es.foldl (fun s e => (step s e).1) s

/-- Environment guarantees on an event: a GET request carries a brand-new
response object, and `randomUUID()` never returns an id currently in the
registry (the practically-guaranteed freshness the spec assumes). -/
def EventOk (s : Server) : Event → Prop
  | .establish sid res _ =>
      (∀ u ∈ s.sessions, u.id ≠ sid) ∧ (∀ st ∈ s.streams, st.res ≠ res)
  | _ => True

instance (s : Server) (e : Event) : Decidable (EventOk s e) := by
  cases e <;> simp only [EventOk] <;> infer_instance

/-- Server states reachable from startup under the environment guarantees. -/
inductive Reachable : Server → Prop where
  | init : Reachable Server.init
  | next (s : Server) (e : Event) (hs : Reachable s) (he : EventOk s e) :
      Reachable (step s e).1

/-! ### Helper lemmas about the registry operations -/

theorem length_pos_of_ne_empty (s : String) (h : s ≠ "") : 0 < s.length := by
  cases s with
  | mk data =>
    cases data with
    | nil => simp at h
    | cons c cs => simp [String.length]

theorem validate_of_ne_empty (x : String) (h : x ≠ "") :
    validateSessionIdHeader (some x) = true := by
  simpa [validateSessionIdHeader] using length_pos_of_ne_empty x h

theorem deleteSession_eq_filter (l : List Session) (sid : String) :
    deleteSession l sid = l.filter (fun t => !(t.id == sid)) := by
  unfold deleteSession
  split
  · rfl
  · rename_i hany
    symm
    apply List.filter_eq_self.mpr
    intro a ha
    simp only [List.any_eq_true, not_exists, not_and] at hany
    simp [hany a ha]

theorem deleteSession_of_absent (l : List Session) (sid : String)
    (h : ∀ u ∈ l, u.id ≠ sid) : deleteSession l sid = l := by
  rw [deleteSession_eq_filter]
  apply List.filter_eq_self.mpr
  intro a ha
  simp [h a ha]

theorem deleteSession_idem (l : List Session) (sid : String) :
    deleteSession (deleteSession l sid) sid = deleteSession l sid := by
  apply deleteSession_of_absent
  intro u hu
  rw [deleteSession_eq_filter] at hu
  have := List.of_mem_filter hu
  simpa using this

theorem session_id_inj {l : List Session}
    (h : (l.map (fun u => u.id)).Nodup) {a b : Session}
    (ha : a ∈ l) (hb : b ∈ l) (hid : a.id = b.id) : a = b :=
  List.inj_on_of_nodup_map h ha hb hid

/-- The cleanup loop, fully characterised over an arbitrary accumulator:
iterating over `todo` deletes from the accumulated map every id that some
stale `todo` entry carries, and increments the counter once per stale
`todo` entry. -/
theorem cleanupStale_foldl (now ma : Int) (todo : List Session) :
    ∀ (acc : List Session) (n : Nat),
      todo.foldl
        (fun acc s =>
          if stale now ma s then (deleteSession acc.1 s.id, acc.2 + 1) else acc)
        (acc, n) =
      (acc.filter (fun a => !(todo.any (fun s => stale now ma s && s.id == a.id))),
       n + (todo.filter (stale now ma)).length) := by
  induction todo with
  | nil => intro acc n; simp
  | cons s rest ih =>
    intro acc n
    by_cases hs : stale now ma s = true
    · rw [List.foldl_cons, if_pos hs, ih, deleteSession_eq_filter, List.filter_filter]
      refine Prod.ext ?_ ?_
      · apply List.filter_congr
        intro a _
        simp only [List.any_cons, hs, Bool.true_and, Bool.not_or]
        rw [Bool.and_comm, Bool.beq_comm]
      · simp only [List.filter_cons, hs]
        simp [Nat.add_assoc, Nat.add_comm 1]
    · rw [List.foldl_cons, if_neg hs, ih]
      have hs' : stale now ma s = false := by simpa using hs
      refine Prod.ext ?_ ?_
      · apply List.filter_congr
        intro a _
        simp [List.any_cons, hs']
      · simp [List.filter_cons, hs']

theorem cleanupStale_fst (l : List Session) (now ma : Int) :
    (cleanupStale l now ma).1 =
      l.filter (fun a => !(l.any (fun s => stale now ma s && s.id == a.id))) := by
  unfold cleanupStale
  rw [cleanupStale_foldl]

theorem cleanupStale_snd (l : List Session) (now ma : Int) :
    (cleanupStale l now ma).2 = (l.filter (stale now ma)).length := by
  unfold cleanupStale
  rw [cleanupStale_foldl]
  simp

theorem cleanupStale_sublist (l : List Session) (now ma : Int) :
    List.Sublist (cleanupStale l now ma).1 l := by
  rw [cleanupStale_fst]
  exact List.filter_sublist l

/-- With distinct ids (a JS `Map` guarantee), the sweep removes exactly the
stale entries. -/
theorem cleanupStale_fst_nodup (l : List Session) (now ma : Int)
    (h : (l.map (fun u => u.id)).Nodup) :
    (cleanupStale l now ma).1 = l.filter (fun s => !(stale now ma s)) := by
  rw [cleanupStale_fst]
  apply List.filter_congr
  intro a ha
  suffices hsuff : l.any (fun s => stale now ma s && s.id == a.id) = stale now ma a by
    rw [hsuff]
  cases hstale : stale now ma a with
  | true =>
    apply List.any_eq_true.mpr
    exact ⟨a, ha, by simp [hstale]⟩
  | false =>
    apply List.any_eq_false.mpr
    intro s hs
    intro hcon
    have h1 : stale now ma s = true := (Bool.and_eq_true_iff.mp hcon).1
    have h2 : s.id = a.id := by
      have := (Bool.and_eq_true_iff.mp hcon).2
      simpa using this
    have : s = a := session_id_inj h hs ha h2
    rw [this] at h1
    rw [h1] at hstale
    exact Bool.noConfusion hstale

/-! ### Helper lemmas about `getSession` and the POST handler -/

theorem getSession_none (l : List Session) (sid : String) (now : Int)
    (h : l.find? (fun s => s.id == sid) = none) :
    getSession l sid now = (l, none) := by
  unfold getSession
  rw [h]

theorem getSession_some (l : List Session) (sid : String) (now : Int)
    (s0 : Session) (h : l.find? (fun s => s.id == sid) = some s0) :
    getSession l sid now =
      (l.map (fun t => if t.id == sid then { s0 with lastActivity := now } else t),
       some { s0 with lastActivity := now }) := by
  unfold getSession
  rw [h]

/-- A successful lookup always stamps `lastActivity` with the current time. -/
theorem getSession_touch {l : List Session} {sid : String} {now : Int}
    {sess : Session} (h : (getSession l sid now).2 = some sess) :
    sess.lastActivity = now := by
  unfold getSession at h
  cases hf : l.find? (fun s => s.id == sid) with
  | none => rw [hf] at h; simp at h
  | some s0 =>
    rw [hf] at h
    simp only [Option.some.injEq] at h
    rw [← h]

/-- Touching a session leaves the id column of the map unchanged. -/
theorem touch_map_ids (l : List Session) (sid : String) (s0 : Session)
    (now : Int) (h0 : l.find? (fun v => v.id == sid) = some s0) :
    ((l.map (fun v => if v.id == sid then { s0 with lastActivity := now } else v)).map
        (fun u => u.id)) = l.map (fun u => u.id) := by
  rw [List.map_map]
  apply List.map_congr_left
  intro v _
  by_cases hveq : (v.id == sid) = true
  · have h1 : s0.id = sid := by simpa using List.find?_some h0
    have h2 : v.id = sid := by simpa using hveq
    simp [Function.comp, hveq, h1, h2]
  · simp [Function.comp, hveq]

/-- The three possible effects of `handlePostMcp` on the session map: left
unchanged (rejection), or with exactly the referenced session touched. -/
theorem handlePostMcp_sessions (h : Option String) (l : List Session) (t : Int) :
    (handlePostMcp h l t).2 = l ∨
    ∃ sid s0, h = some sid ∧ l.find? (fun v => v.id == sid) = some s0 ∧
      (handlePostMcp h l t).2 =
        l.map (fun v => if v.id == sid then { s0 with lastActivity := t } else v) := by
  unfold handlePostMcp
  by_cases hv : validateSessionIdHeader h = true
  · rw [if_pos hv]
    obtain ⟨sid, rfl⟩ : ∃ sid, h = some sid := by
      cases h with
      | none => simp [validateSessionIdHeader] at hv
      | some s => exact ⟨s, rfl⟩
    simp only [Option.getD_some]
    cases hf : l.find? (fun v => v.id == sid) with
    | none => left; rw [getSession_none _ _ _ hf]
    | some s0 =>
      right
      exact ⟨sid, s0, rfl, hf, by rw [getSession_some _ _ _ _ hf]⟩
  · rw [if_neg hv]
    left
    rfl

/-! ### Claim theorems: stateless handler properties -/

/-- C4: a message request with an absent identifier header, and equally one
with an empty-string identifier, is rejected before any registry lookup with
status 400 and the INVALID_REQUEST envelope (code -32600), the registry left
untouched; the empty-string case is handled identically to the absent one. -/
theorem claim_C4 : ∀ (l : List Session) (now : Int),
    handlePostMcp none l now =
      (sendJsonRpcError 400 INVALID_REQUEST "Bad Request: Missing Mcp-Session-Id header", l) ∧
    handlePostMcp (some "") l now = handlePostMcp none l now := by
  intro l now
  exact ⟨rfl, rfl⟩

/-- C5: the terminate handler is idempotent and total: for every identifier —
valid, already removed, never issued, or absent — and for repeated
invocations, the response is always `204` with no body, and removing a
nonexistent identifier leaves the registry unchanged. -/
theorem claim_C5 : ∀ (l : List Session) (h : Option String),
    (handleDeleteMcp h l).1 = { status := 204, body := none } ∧
    (handleDeleteMcp h (handleDeleteMcp h l).2).1 = { status := 204, body := none } ∧
    (handleDeleteMcp h (handleDeleteMcp h l).2).2 = (handleDeleteMcp h l).2 ∧
    (∀ x, h = some x → (∀ u ∈ l, u.id ≠ x) → (handleDeleteMcp h l).2 = l) ∧
    (handleDeleteMcp none l).2 = l := by
  intro l h
  refine ⟨rfl, rfl, ?_, ?_, rfl⟩
  · cases h with
    | none => rfl
    | some x =>
      by_cases hx : x.length > 0
      · simp [handleDeleteMcp, hx, deleteSession_idem]
      · simp [handleDeleteMcp, hx]
  · intro x hx habs
    subst hx
    by_cases hlen : x.length > 0
    · simp [handleDeleteMcp, hlen, deleteSession_of_absent l x habs]
    · simp [handleDeleteMcp, hlen]

/-- C9: a POST whose body fails JSON parsing is answered by the parse-error
middleware before identifier validation — for every header value the result
is the same status-400 INVALID_REQUEST envelope (code -32600), the registry
untouched, never a generic internal fault. -/
theorem claim_C9 : ∀ (header : Option String) (l : List Session) (now : Int),
    handlePostPipeline none header l now =
      (sendJsonRpcError 400 INVALID_REQUEST "Bad Request: Malformed JSON", l) ∧
    handlePostPipeline none header l now = handlePostPipeline none none l now ∧
    (handlePostPipeline none header l now).1.status = 400 ∧
    (handlePostPipeline none header l now).1.body =
      some (createJsonRpcError INVALID_REQUEST "Bad Request: Malformed JSON" none) := by
  intro header l now
  exact ⟨rfl, rfl, rfl, rfl⟩

/-- C2 (amended): the expiry sweep removes exactly the sessions whose
inactivity strictly exceeds `maxAge`, leaves every other session, and counts
the removals (the count is logged); the function itself returns void
(`undefined`), not the count. -/
theorem claim_C2 (l : List Session) (now maxAgeMs : Int)
    (h : (l.map (fun u => u.id)).Nodup) :
    (cleanupStale l now maxAgeMs).1 = l.filter (fun s => !(stale now maxAgeMs s)) ∧
    (∀ u ∈ l, u ∈ (cleanupStale l now maxAgeMs).1 ↔ ¬(now - u.lastActivity > maxAgeMs)) ∧
    (cleanupStale l now maxAgeMs).2 = (l.filter (stale now maxAgeMs)).length ∧
    cleanupStaleRet l now maxAgeMs = none := by
  refine ⟨cleanupStale_fst_nodup l now maxAgeMs h, ?_, cleanupStale_snd l now maxAgeMs, rfl⟩
  intro u hu
  rw [cleanupStale_fst_nodup l now maxAgeMs h]
  simp [List.mem_filter, hu, stale]

/-- C2 counterexample: on a registry with one stale session the sweep removes
one session, but its call-site value is `undefined` (the TypeScript signature
is `void`), not the number removed, refuting "returns the number of sessions
removed". -/
theorem claim_C2_counterexample :
    (cleanupStale [{ id := "a", response := 0, createdAt := 0, lastActivity := 0 }] 10 1).1 = [] ∧
    (cleanupStale [{ id := "a", response := 0, createdAt := 0, lastActivity := 0 }] 10 1).2 = 1 ∧
    cleanupStaleRet [{ id := "a", response := 0, createdAt := 0, lastActivity := 0 }] 10 1 ≠ some 1 ∧
    cleanupStaleRet [{ id := "a", response := 0, createdAt := 0, lastActivity := 0 }] 10 1 = none := by
  refine ⟨by decide, by decide, ?_, rfl⟩
  intro hcon
  exact Option.noConfusion hcon

/-- C1: for a non-empty identifier `x`, a message request carrying `x` is
accepted (status 202, body `{accepted: true}`) if and only if a session with
id `x` is currently present in the registry; when `x` is present in the
request but unknown to the registry, the request is rejected with status 401
and error code -32001. -/
theorem claim_C1 (l : List Session) (now : Int) (x : String)
    (hx : validateSessionIdHeader (some x) = true) :
    ((handlePostMcp (some x) l now).1 =
        { status := 202, body := some acceptedBody } ↔ ∃ u ∈ l, u.id = x) ∧
    ((∀ u ∈ l, u.id ≠ x) →
      (handlePostMcp (some x) l now).1 =
        sendJsonRpcError 401 UNAUTHORIZED "Unauthorized: Invalid or expired session ID") := by
  unfold handlePostMcp
  rw [if_pos hx]
  simp only [Option.getD_some]
  cases hf : l.find? (fun v => v.id == x) with
  | some s0 =>
    rw [getSession_some _ _ _ _ hf]
    constructor
    · constructor
      · intro _
        refine ⟨s0, List.mem_of_find?_eq_some hf, ?_⟩
        simpa using List.find?_some hf
      · intro _
        rfl
    · intro habs
      exfalso
      have hmem := List.mem_of_find?_eq_some hf
      have hid : s0.id = x := by simpa using List.find?_some hf
      exact habs s0 hmem hid
  | none =>
    rw [getSession_none _ _ _ hf]
    constructor
    · constructor
      · intro heq
        exfalso
        have := congrArg HttpResponse.status heq
        simp [sendJsonRpcError] at this
      · intro hex
        exfalso
        obtain ⟨u, hu, hid⟩ := hex
        have := List.find?_eq_none.mp hf u hu
        simp [hid] at this
    · intro _
      rfl

/-- C6: the failure responses for a missing identifier and for an unknown
identifier carry exactly the fields `jsonrpc` (the fixed string "2.0"),
`error.code` (an integer) and `error.message` (a string) — no field omitted
or added — for every input that triggers these failures. -/
theorem claim_C6 : ∀ (l : List Session) (now : Int) (x : String),
    (∀ u ∈ l, u.id ≠ x) → x ≠ "" →
    ((handlePostMcp (some x) l now).1.body =
        some (Json.obj [("jsonrpc", Json.str "2.0"),
          ("error", Json.obj [("code", Json.num (-32001)),
            ("message", Json.str "Unauthorized: Invalid or expired session ID")])]) ∧
     (handlePostMcp none l now).1.body =
        some (Json.obj [("jsonrpc", Json.str "2.0"),
          ("error", Json.obj [("code", Json.num (-32600)),
            ("message", Json.str "Bad Request: Missing Mcp-Session-Id header")])]) ∧
     (handlePostMcp (some "") l now).1.body = (handlePostMcp none l now).1.body) := by
  intro l now x habs hne
  have h401 := (claim_C1 l now x (validate_of_ne_empty x hne)).2 habs
  refine ⟨?_, rfl, rfl⟩
  rw [h401]
  rfl

/-- C10: frame of the message handler: a rejected message request (missing
or empty identifier, or unknown identifier) leaves the registry completely
unchanged; a successful one changes only the `lastActivity` of the referenced
session, preserving its id, creation time and stream handle and every other
session's entire state; the stream-channel table is never touched by POST. -/
theorem claim_C10 (l : List Session) (now : Int) (x : String)
    (hn : (l.map (fun u => u.id)).Nodup) :
    (handlePostMcp none l now).2 = l ∧
    (handlePostMcp (some "") l now).2 = l ∧
    ((∀ u ∈ l, u.id ≠ x) → (handlePostMcp (some x) l now).2 = l) ∧
    (x ≠ "" → (∃ u ∈ l, u.id = x) →
      (handlePostMcp (some x) l now).2 =
        l.map (fun u => if u.id == x then { u with lastActivity := now } else u)) ∧
    (∀ (srv : Server) (h : Option String) (t : Int),
        (step srv (.post h t)).1.streams = srv.streams) := by
  refine ⟨rfl, rfl, ?_, ?_, fun _ _ _ => rfl⟩
  · intro habs
    by_cases hx : x = ""
    · subst hx
      rfl
    · unfold handlePostMcp
      rw [if_pos (validate_of_ne_empty x hx)]
      simp only [Option.getD_some]
      have hf : l.find? (fun v => v.id == x) = none := by
        apply List.find?_eq_none.mpr
        intro u hu
        simp [habs u hu]
      rw [getSession_none _ _ _ hf]
  · intro hne hex
    unfold handlePostMcp
    rw [if_pos (validate_of_ne_empty x hne)]
    simp only [Option.getD_some]
    cases hf : l.find? (fun v => v.id == x) with
    | none =>
      exfalso
      obtain ⟨u, hu, hid⟩ := hex
      have := List.find?_eq_none.mp hf u hu
      simp [hid] at this
    | some s0 =>
      rw [getSession_some _ _ _ _ hf]
      apply List.map_congr_left
      intro u hu
      by_cases hueq : (u.id == x) = true
      · have hid : s0.id = x := by simpa using List.find?_some hf
        have huid : u.id = x := by simpa using hueq
        have : u = s0 :=
          session_id_inj hn hu (List.mem_of_find?_eq_some hf) (by rw [huid, hid])
        simp [hueq, this]
      · simp [hueq]

/-! ### Reachable-state invariants -/

theorem runTrace_nil (s : Server) : runTrace s [] = s := rfl

theorem runTrace_cons (s : Server) (e : Event) (es : List Event) :
    runTrace s (e :: es) = runTrace (step s e).1 es := rfl

theorem mapSet_append (l : List Session) (s : Session)
    (h : ∀ u ∈ l, u.id ≠ s.id) : mapSet l s = l ++ [s] := by
  unfold mapSet
  rw [if_neg]
  simp only [List.any_eq_true, not_exists, not_and]
  intro u hu
  simp [h u hu]

theorem handleDeleteMcp_sublist (h : Option String) (l : List Session) :
    List.Sublist (handleDeleteMcp h l).2 l := by
  unfold handleDeleteMcp
  cases h with
  | none => exact List.Sublist.refl l
  | some x =>
    by_cases hx : x.length > 0
    · simp only [hx, if_pos]
      rw [deleteSession_eq_filter]
      exact List.filter_sublist l
    · simp only [hx, if_neg, if_false]
      exact List.Sublist.refl l

theorem handlePost_ids (h : Option String) (l : List Session) (t : Int) :
    ((handlePostMcp h l t).2).map (fun u => u.id) = l.map (fun u => u.id) := by
  rcases handlePostMcp_sessions h l t with heq | ⟨sid, s0, _, hf, heq⟩
  · rw [heq]
  · rw [heq]
    exact touch_map_ids l sid s0 t hf

/-- Invariant of reachable server states: channel handles are distinct,
session ids are distinct, and every registry entry points at a stream record
whose channel is still open and whose close-callback targets that session. -/
def Inv (s : Server) : Prop :=
  (s.streams.map (fun st => st.res)).Nodup ∧
  (s.sessions.map (fun u => u.id)).Nodup ∧
  ∀ sess ∈ s.sessions, ∃ st ∈ s.streams,
    st.res = sess.response ∧ st.sid = sess.id ∧ st.isOpen = true

theorem reachable_inv : ∀ {s : Server}, Reachable s → Inv s := by
  intro s h
  induction h with
  | init =>
    refine ⟨List.nodup_nil, List.nodup_nil, ?_⟩
    intro sess hmem
    simp [Server.init] at hmem
  | next s e hs he ih =>
    obtain ⟨ihres, ihids, ihcor⟩ := ih
    cases e with
    | establish sid res t =>
      obtain ⟨hid, hres⟩ := he
      have hcre : (createSession s.sessions sid res t).1 =
          s.sessions ++ [{ id := sid, response := res, createdAt := t, lastActivity := t }] := by
        unfold createSession
        exact mapSet_append _ _ hid
      refine ⟨?_, ?_, ?_⟩
      · simp only [step]
        rw [List.map_append]
        refine List.Nodup.append ihres (by simp) ?_
        intro a ha hb
        simp only [List.map_cons, List.map_nil, List.mem_singleton] at hb
        obtain ⟨st, hst, hsteq⟩ := List.mem_map.mp ha
        exact hres st hst (by rw [hsteq, hb])
      · simp only [step]
        rw [hcre, List.map_append]
        refine List.Nodup.append ihids (by simp) ?_
        intro a ha hb
        simp only [List.map_cons, List.map_nil, List.mem_singleton] at hb
        obtain ⟨u, hu, hueq⟩ := List.mem_map.mp ha
        exact hid u hu (by rw [hueq, hb])
      · simp only [step]
        rw [hcre]
        intro sess hmem
        rcases List.mem_append.mp hmem with hold | hnew
        · obtain ⟨st, hst, h1, h2, h3⟩ := ihcor sess hold
          exact ⟨st, List.mem_append_left _ hst, h1, h2, h3⟩
        · simp only [List.mem_singleton] at hnew
          subst hnew
          exact ⟨{ res := res, sid := sid, isOpen := true },
            List.mem_append_right _ (by simp), rfl, rfl, rfl⟩
    | post header t =>
      refine ⟨ihres, ?_, ?_⟩
      · simp only [step]
        rw [handlePost_ids]
        exact ihids
      · simp only [step]
        intro sess hmem
        rcases handlePostMcp_sessions header s.sessions t with heq | ⟨sid, s0, _, hf, heq⟩
        · rw [heq] at hmem
          exact ihcor sess hmem
        · rw [heq] at hmem
          obtain ⟨u, hu, hueq⟩ := List.mem_map.mp hmem
          by_cases hcase : (u.id == sid) = true
          · rw [if_pos hcase] at hueq
            obtain ⟨st, hst, h1, h2, h3⟩ := ihcor s0 (List.mem_of_find?_eq_some hf)
            exact ⟨st, hst, by rw [← hueq] at *; exact h1, by rw [← hueq]; exact h2, h3⟩
          · rw [if_neg hcase] at hueq
            subst hueq
            exact ihcor u hu
    | terminate header t =>
      have hsub : List.Sublist (handleDeleteMcp header s.sessions).2 s.sessions :=
        handleDeleteMcp_sublist header s.sessions
      refine ⟨ihres, ?_, ?_⟩
      · simp only [step]
        exact ihids.sublist (hsub.map _)
      · simp only [step]
        intro sess hmem
        exact ihcor sess (hsub.mem hmem)
    | disconnect res t =>
      cases hf : s.streams.find? (fun st => st.res == res) with
      | none =>
        simp only [step, hf]
        exact ⟨ihres, ihids, ihcor⟩
      | some st =>
        have hstmem : st ∈ s.streams := List.mem_of_find?_eq_some hf
        have hstres : st.res = res := by simpa using List.find?_some hf
        refine ⟨?_, ?_, ?_⟩
        · simp only [step, hf]
          have : (s.streams.map
              (fun u => if u.res == res then { u with isOpen := false } else u)).map
                (fun st => st.res) = s.streams.map (fun st => st.res) := by
            rw [List.map_map]
            apply List.map_congr_left
            intro u _
            by_cases hc : (u.res == res) = true
            · simp [Function.comp, hc]
            · simp [Function.comp, hc]
          rw [this]
          exact ihres
        · simp only [step, hf]
          rw [deleteSession_eq_filter]
          exact ihids.sublist ((List.filter_sublist _).map _)
        · simp only [step, hf]
          intro sess hmem
          rw [deleteSession_eq_filter] at hmem
          have hmem' : sess ∈ s.sessions := List.mem_of_mem_filter hmem
          have hneq : sess.id ≠ st.sid := by
            have := List.of_mem_filter hmem
            simpa using this
          obtain ⟨st0, hst0, h1, h2, h3⟩ := ihcor sess hmem'
          have hst0res : st0.res ≠ res := by
            intro heq
            have : st0 = st :=
              List.inj_on_of_nodup_map ihres hst0 hstmem (by rw [heq, hstres])
            rw [this] at h2
            exact hneq h2.symm
          refine ⟨st0, ?_, h1, h2, h3⟩
          refine List.mem_map.mpr ⟨st0, hst0, ?_⟩
          simp [hst0res]
    | sweep ma t =>
      have hsub : List.Sublist (cleanupStale s.sessions t ma).1 s.sessions :=
        cleanupStale_sublist s.sessions t ma
      refine ⟨ihres, ?_, ?_⟩
      · simp only [step]
        exact ihids.sublist (hsub.map _)
      · simp only [step]
        intro sess hmem
        exact ihcor sess (hsub.mem hmem)

/-- C7: with the identifier generator never returning an id currently live,
the ids of live sessions are pairwise distinct in every reachable state, and
a create under a fresh id never overwrites an existing live session's entry. -/
theorem claim_C7 (s : Server) (h : Reachable s) :
    (s.sessions.map (fun u => u.id)).Nodup ∧
    (∀ sid res t, (∀ u ∈ s.sessions, u.id ≠ sid) →
      ∀ u ∈ s.sessions, u ∈ (step s (.establish sid res t)).1.sessions) := by
  refine ⟨(reachable_inv h).2.1, ?_⟩
  intro sid res t hfresh u hu
  simp only [step]
  unfold createSession
  rw [mapSet_append _ _ hfresh]
  exact List.mem_append_left _ hu

/-- C3 (amended): in every reachable state each registry entry references an
open stream channel whose close-callback targets that entry, and a client
disconnect synchronously removes the corresponding session; but removing a
session by terminate or expiry sweep does not close its stream handle — the
stream table is untouched, so the channel may stay open after the session is
destroyed. -/
theorem claim_C3 (s : Server) (h : Reachable s) :
    (∀ sess ∈ s.sessions, ∃ st ∈ s.streams,
        st.res = sess.response ∧ st.sid = sess.id ∧ st.isOpen = true) ∧
    (∀ res t st, s.streams.find? (fun u => u.res == res) = some st →
        ∀ sess ∈ (step s (.disconnect res t)).1.sessions, sess.id ≠ st.sid) ∧
    (∀ hdr t, (step s (.terminate hdr t)).1.streams = s.streams) ∧
    (∀ ma t, (step s (.sweep ma t)).1.streams = s.streams) := by
  refine ⟨(reachable_inv h).2.2, ?_, fun _ _ => rfl, fun _ _ => rfl⟩
  intro res t st hf sess hmem
  simp only [step, hf] at hmem
  rw [deleteSession_eq_filter] at hmem
  have := List.of_mem_filter hmem
  simpa using this

/-- C3 counterexample: establish a session, then terminate it — the session
is gone from the registry, yet its stream handle is still open: removal does
not release the channel. -/
theorem claim_C3_counterexample :
    (runTrace Server.init
        [.establish "a" 0 0, .terminate (some "a") 1]).sessions = [] ∧
    (runTrace Server.init
        [.establish "a" 0 0, .terminate (some "a") 1]).streams =
      [{ res := 0, sid := "a", isOpen := true }] := by
  exact ⟨by decide, by decide⟩

/-! ### Activity refresh along traces -/

/-- A message/sweep cadence for session id `sid`: starting from a last-touch
time `la`, messages for `sid` arrive at nondecreasing times spaced strictly
less than `maxAge` apart, other messages are arbitrary, and every sweep run
while the cadence continues (i.e., before the next message, hence strictly
within `maxAge` of the last touch) uses `maxAge`. -/
inductive Cadence (sid : String) (maxAge : Int) : Int → List Event → Prop where
  | nil (la : Int) : Cadence sid maxAge la []
  | post_self (la t : Int) (es : List Event) (h1 : la ≤ t) (h2 : t - la < maxAge)
      (hc : Cadence sid maxAge t es) :
      Cadence sid maxAge la (.post (some sid) t :: es)
  | post_other (la t : Int) (h : Option String) (es : List Event)
      (hne : h ≠ some sid) (hc : Cadence sid maxAge la es) :
      Cadence sid maxAge la (.post h t :: es)
  | sweep (la t : Int) (es : List Event) (h1 : la ≤ t) (h2 : t - la < maxAge)
      (hc : Cadence sid maxAge la es) :
      Cadence sid maxAge la (.sweep maxAge t :: es)

theorem c8_aux {sid : String} {maxAge : Int} (hsid : sid ≠ "") :
    ∀ {la : Int} {es : List Event}, Cadence sid maxAge la es →
    ∀ s : Server, (s.sessions.map (fun u => u.id)).Nodup →
    (∃ u ∈ s.sessions, u.id = sid ∧ u.lastActivity = la) →
    ∃ u ∈ (runTrace s es).sessions, u.id = sid := by
  intro la es hc
  induction hc with
  | nil la =>
    rintro s _ ⟨u, hu, hid, _⟩
    exact ⟨u, hu, hid⟩
  | post_self la t es h1 h2 hc ih =>
    rintro s hn ⟨u, hu, hid, hla⟩
    rw [runTrace_cons]
    have hval := validate_of_ne_empty sid hsid
    obtain ⟨s0, hf⟩ : ∃ s0, s.sessions.find? (fun v => v.id == sid) = some s0 := by
      cases hf : s.sessions.find? (fun v => v.id == sid) with
      | some s0 => exact ⟨s0, rfl⟩
      | none =>
        exfalso
        have := List.find?_eq_none.mp hf u hu
        simp [hid] at this
    have hsess : (handlePostMcp (some sid) s.sessions t).2 =
        s.sessions.map (fun v => if v.id == sid then { s0 with lastActivity := t } else v) := by
      unfold handlePostMcp
      rw [if_pos hval]
      simp only [Option.getD_some]
      rw [getSession_some _ _ _ _ hf]
    apply ih
    · simp only [step]
      rw [hsess, touch_map_ids _ _ _ _ hf]
      exact hn
    · refine ⟨{ s0 with lastActivity := t }, ?_, ?_, rfl⟩
      · simp only [step]
        rw [hsess]
        refine List.mem_map.mpr ⟨u, hu, ?_⟩
        simp [hid]
      · simpa using List.find?_some hf
  | post_other la t h es hne hc ih =>
    rintro s hn ⟨u, hu, hid, hla⟩
    rw [runTrace_cons]
    apply ih
    · simp only [step]
      rw [handlePost_ids]
      exact hn
    · rcases handlePostMcp_sessions h s.sessions t with heq | ⟨sid', s0, hh, hf, heq⟩
      · simp only [step]
        rw [heq]
        exact ⟨u, hu, hid, hla⟩
      · have hne' : (u.id == sid') = false := by
          subst hh
          have : sid ≠ sid' := fun hc' => hne (by rw [hc'])
          simp [hid, this]
        simp only [step]
        rw [heq]
        refine ⟨u, List.mem_map.mpr ⟨u, hu, ?_⟩, hid, hla⟩
        simp [hne']
  | sweep la t es h1 h2 hc ih =>
    rintro s hn ⟨u, hu, hid, hla⟩
    rw [runTrace_cons]
    apply ih
    · simp only [step]
      exact hn.sublist ((cleanupStale_sublist s.sessions t maxAge).map _)
    · simp only [step]
      refine ⟨u, ?_, hid, hla⟩
      rw [cleanupStale_fst_nodup _ _ _ hn]
      refine List.mem_filter.mpr ⟨hu, ?_⟩
      simp only [stale, hla, Bool.not_eq_true', decide_eq_false_iff_not]
      omega

/-- C8: a successful lookup always stamps `lastActivity` with the current
time, and therefore a session with distinct-id registry state that keeps
receiving valid messages spaced strictly less than `maxAge` apart is never
removed by an expiry sweep run while that cadence continues. -/
theorem claim_C8 :
    (∀ (l : List Session) (x : String) (now : Int) (sess : Session),
        (getSession l x now).2 = some sess → sess.lastActivity = now) ∧
    (∀ (sid : String) (maxAge la : Int) (es : List Event) (s : Server),
        sid ≠ "" →
        Cadence sid maxAge la es →
        (s.sessions.map (fun u => u.id)).Nodup →
        (∃ u ∈ s.sessions, u.id = sid ∧ u.lastActivity = la) →
        ∃ u ∈ (runTrace s es).sessions, u.id = sid) := by
  refine ⟨?_, ?_⟩
  · intro l x now sess h
    exact getSession_touch h
  · intro sid maxAge la es s hsid hc hn hex
    exact c8_aux hsid hc s hn hex

/-! ### Concrete witnesses -/

/-- A sample session used in witnesses. -/
def sA : Session := { id := "a", response := 0, createdAt := 0, lastActivity := 0 }

/-- A second sample session used in witnesses. -/
def sB : Session := { id := "b", response := 1, createdAt := 0, lastActivity := 9 }

/-- A reachable one-session server state used in witnesses. -/
def srv1 : Server := (step Server.init (.establish "a" 0 0)).1

theorem srv1_reachable : Reachable srv1 :=
  Reachable.next Server.init (.establish "a" 0 0) Reachable.init (by decide)

theorem claim_C1_witness :
    validateSessionIdHeader (some "a") = true ∧
    (((handlePostMcp (some "a") [sA] 5).1 =
        { status := 202, body := some acceptedBody } ↔ ∃ u ∈ [sA], u.id = "a") ∧
     ((∀ u ∈ [sA], u.id ≠ "a") →
        (handlePostMcp (some "a") [sA] 5).1 =
          sendJsonRpcError 401 UNAUTHORIZED "Unauthorized: Invalid or expired session ID")) :=
  ⟨by decide, claim_C1 [sA] 5 "a" (by decide)⟩

theorem claim_C2_witness :
    (([sA, sB].map (fun u => u.id)).Nodup) ∧
    ((cleanupStale [sA, sB] 10 5).1 = [sA, sB].filter (fun s => !(stale 10 5 s)) ∧
     (∀ u ∈ [sA, sB], u ∈ (cleanupStale [sA, sB] 10 5).1 ↔ ¬((10 : Int) - u.lastActivity > 5)) ∧
     (cleanupStale [sA, sB] 10 5).2 = ([sA, sB].filter (stale 10 5)).length ∧
     cleanupStaleRet [sA, sB] 10 5 = none) :=
  ⟨by decide, claim_C2 [sA, sB] 10 5 (by decide)⟩

theorem claim_C3_witness :
    Reachable srv1 ∧
    ((∀ sess ∈ srv1.sessions, ∃ st ∈ srv1.streams,
        st.res = sess.response ∧ st.sid = sess.id ∧ st.isOpen = true) ∧
     (∀ res t st, srv1.streams.find? (fun u => u.res == res) = some st →
        ∀ sess ∈ (step srv1 (.disconnect res t)).1.sessions, sess.id ≠ st.sid) ∧
     (∀ hdr t, (step srv1 (.terminate hdr t)).1.streams = srv1.streams) ∧
     (∀ ma t, (step srv1 (.sweep ma t)).1.streams = srv1.streams)) :=
  ⟨srv1_reachable, claim_C3 srv1 srv1_reachable⟩

theorem claim_C5_witness :
    (∀ u ∈ [sA], u.id ≠ "zz") ∧
    (handleDeleteMcp (some "zz") [sA]).2 = [sA] ∧
    (handleDeleteMcp (some "zz") [sA]).1 = { status := 204, body := none } :=
  ⟨by decide, (claim_C5 [sA] (some "zz")).2.2.2.1 "zz" rfl (by decide),
   (claim_C5 [sA] (some "zz")).1⟩

theorem claim_C6_witness :
    (∀ u ∈ [sA], u.id ≠ "zz") ∧ ("zz" ≠ "") ∧
    ((handlePostMcp (some "zz") [sA] 5).1.body =
        some (Json.obj [("jsonrpc", Json.str "2.0"),
          ("error", Json.obj [("code", Json.num (-32001)),
            ("message", Json.str "Unauthorized: Invalid or expired session ID")])]) ∧
     (handlePostMcp none [sA] 5).1.body =
        some (Json.obj [("jsonrpc", Json.str "2.0"),
          ("error", Json.obj [("code", Json.num (-32600)),
            ("message", Json.str "Bad Request: Missing Mcp-Session-Id header")])]) ∧
     (handlePostMcp (some "") [sA] 5).1.body = (handlePostMcp none [sA] 5).1.body) :=
  ⟨by decide, by decide, claim_C6 [sA] 5 "zz" (by decide) (by decide)⟩

theorem claim_C7_witness :
    Reachable srv1 ∧
    ((srv1.sessions.map (fun u => u.id)).Nodup ∧
     (∀ sid res t, (∀ u ∈ srv1.sessions, u.id ≠ sid) →
        ∀ u ∈ srv1.sessions, u ∈ (step srv1 (.establish sid res t)).1.sessions)) :=
  ⟨srv1_reachable, claim_C7 srv1 srv1_reachable⟩

theorem claim_C8_witness :
    Session.lastActivity { id := "a", response := 0, createdAt := 0, lastActivity := 5 } = 5 ∧
    (∃ u ∈ (runTrace { sessions := [sA], streams := [] }
        [.post (some "a") 1, .sweep 100 2]).sessions, u.id = "a") :=
  ⟨claim_C8.1 [sA] "a" 5 { id := "a", response := 0, createdAt := 0, lastActivity := 5 }
      (by decide),
   claim_C8.2 "a" 100 0 [.post (some "a") 1, .sweep 100 2]
      { sessions := [sA], streams := [] } (by decide)
      (Cadence.post_self 0 1 _ (by decide) (by decide)
        (Cadence.sweep 1 2 [] (by decide) (by decide) (Cadence.nil 1)))
      (by decide) (by decide)⟩

theorem claim_C10_witness :
    (([sA, sB].map (fun u => u.id)).Nodup) ∧ ("a" ≠ "") ∧ (∃ u ∈ [sA, sB], u.id = "a") ∧
    (handlePostMcp (some "a") [sA, sB] 7).2 =
      [sA, sB].map (fun u => if u.id == "a" then { u with lastActivity := 7 } else u) :=
  ⟨by decide, by decide, by decide,
   (claim_C10 [sA, sB] 7 "a" (by decide)).2.2.2.1 (by decide) (by decide)⟩

end StreamableHttp
